import Mathlib

/-!
Verification of the follower-collection pipeline in src/x-followers.py.

The embedding keeps the source's names where Lean allows it. The store file
(`<handle>_followers.csv`) is modeled as `Option (List FollowerRecord)` —
`none` when the file does not exist. Remote endpoints are modeled as
explicit response data: the listing endpoint as a list of responses (one
per request issued) and the batch lookup endpoint as a function from the
requested id list and attempt number to a response. Timestamps are opaque
strings supplied as parameters; sleeping has no modeled effect beyond the
computed duration.
-/

set_option maxHeartbeats 1000000

namespace XFollowers

/-- One user object as returned by the users/lookup.json endpoint
    (fields read at src/x-followers.py lines 179-186). -/
structure UserDetails where
  id_str : String
  screen_name : String
  name : String
  followers_count : Nat
  created_at : Option String
deriving DecidableEq, Repr

/-- One CSV row of the store (columns fixed at line 140). -/
structure FollowerRecord where
  timestamp : String
  id : String
  screen_name : String
  name : String
  followers_count : Nat
  created_at : String
deriving DecidableEq, Repr

/-- The row written for one resolved user (lines 179-186); a missing
    created_at becomes the "N/A" sentinel (line 185). -/
def mkRecord (ts : String) (u : UserDetails) : FollowerRecord :=
  ⟨ts, u.id_str, u.screen_name, u.name, u.followers_count, u.created_at.getD "N/A"⟩

/-- Payload of a successful followers/ids.json page: the id list and the
    next_cursor value (lines 91, 98). -/
structure Page where
  ids : List Nat
  next_cursor : Int
deriving DecidableEq, Repr

/-- A raw response of the listing endpoint: HTTP status, optional
    x-rate-limit-reset header, page payload and body text. -/
structure ListingResp where
  status : Nat
  resetHeader : Option String
  ids : List Nat
  next_cursor : Int
  body : String
deriving DecidableEq, Repr

/-- A response of the users/lookup.json endpoint, or a connection-level
    transport failure (requests.exceptions.ConnectionError, line 195). -/
inductive LookupResp where
  | http (status : Nat) (resetHeader : Option String) (users : List UserDetails) (body : String)
  | connectionError
deriving DecidableEq, Repr

/-- load_existing_user_ids (lines 115-127): the id column of the CSV as a
    set of strings, empty when the file does not exist. -/
def load_existing_user_ids : Option (List FollowerRecord) → List String
  | none => []
  | some recs => recs.map (·.id)

/-- Fuel-driven helper for `chunks100`; the fuel is an upper bound on the
    list length, so the `[l]` fallback is never reached from `chunks100`. -/
def chunks100Fuel : Nat → List Nat → List (List Nat)
  | _, [] => []
  | 0, l => [l]
  | fuel + 1, a :: as => ((a :: as).take 100) :: chunks100Fuel fuel ((a :: as).drop 100)

/-- The chunking `for i in range(0, total_ids, 100)` over
    `ids_list[i:i+100]` (line 151): successive slices of at most 100 ids. -/
def chunks100 (l : List Nat) : List (List Nat) := chunks100Fuel l.length l

theorem chunks100Fuel_congr : ∀ (f1 f2 : Nat) (l : List Nat),
    l.length ≤ f1 → l.length ≤ f2 → chunks100Fuel f1 l = chunks100Fuel f2 l := by
  intro f1
  induction f1 with
  | zero =>
    intro f2 l h1 _
    have hl : l = [] := List.length_eq_zero.mp (Nat.le_zero.mp h1)
    subst hl
    cases f2 <;> rfl
  | succ m ih =>
    intro f2 l h1 h2
    cases l with
    | nil => cases f2 <;> rfl
    | cons a as =>
      cases f2 with
      | zero => simp at h2
      | succ k =>
        rw [chunks100Fuel, chunks100Fuel]
        congr 1
        apply ih
        · rw [List.length_drop]
          simp only [List.length_cons] at h1 ⊢
          omega
        · rw [List.length_drop]
          simp only [List.length_cons] at h2 ⊢
          omega

/-- The recursive unfolding of `chunks100` on a nonempty list. -/
theorem chunks100_cons (a : Nat) (as : List Nat) :
    chunks100 (a :: as) = ((a :: as).take 100) :: chunks100 ((a :: as).drop 100) := by
  show chunks100Fuel (a :: as).length (a :: as) = _
  rw [List.length_cons, chunks100Fuel]
  congr 1
  apply chunks100Fuel_congr
  · rw [List.length_drop]
    simp only [List.length_cons]
    omega
  · exact le_refl _

/-- Line 153: `[str(id) for id in chunk if str(id) not in existing_ids]`. -/
def chunkReq (existing : List String) (chunk : List Nat) : List String :=
  (chunk.map toString).filter (fun s => decide (s ∉ existing))

/-- Outcome of the per-chunk retry loop (lines 159-197). -/
inductive ChunkOutcome where
  | resolved (found : List UserDetails)
  | skippedNotFound
  | exhausted
  | fatal (status : Nat) (body : String)
deriving DecidableEq, Repr

/-- The retry loop `for attempt in range(retries)` of get_user_details
    (lines 159-197): status 404 breaks with no data (165-166); status 429
    sleeps and consumes an attempt via `continue` (167-170); any other
    non-200 status raises (171-172); status 200 resolves the chunk
    (174-193); a ConnectionError sleeps and consumes an attempt (195-197).
    `resp a` is the response to the (a+1)-th request issued for this chunk;
    the last argument is the number of attempts remaining. -/
def chunkRetryLoop (resp : Nat → LookupResp) (attempt : Nat) : Nat → ChunkOutcome
  | 0 => .exhausted
  | n + 1 =>
    match resp attempt with
    | .connectionError => chunkRetryLoop resp (attempt + 1) n
    | .http status _ users body =>
      if status = 404 then .skippedNotFound
      else if status = 429 then chunkRetryLoop resp (attempt + 1) n
      else if status ≠ 200 then .fatal status body
      else .resolved users

/-- State threaded through get_user_details: the CSV contents, the
    in-memory existing_ids set, the processed_ids counter, and a pending
    fatal exception (status, body) if one was raised. -/
structure EnrichState where
  store : List FollowerRecord
  existing : List String
  processed : Nat
  fatal : Option (Nat × String)
deriving DecidableEq, Repr

/-- The chunk loop of get_user_details (lines 151-201). `resp req a` is
    the remote's response to the (a+1)-th request for the id list `req`.
    A raised exception (non-200/404/429 status) stops the loop; rows
    already appended remain in the CSV. Note line 155: the skipped-chunk
    branch adds `len(ids_chunk)` of the already-emptied chunk, i.e. 0,
    to processed_ids. -/
def enrichChunks (resp : List String → Nat → LookupResp) (retries : Nat) (ts : String) :
    List (List Nat) → List String → List FollowerRecord → Nat → EnrichState
  | [], existing, store, processed => ⟨store, existing, processed, none⟩
  | chunk :: rest, existing, store, processed =>
    let ids_chunk := chunkReq existing chunk
    if ids_chunk.isEmpty then
      enrichChunks resp retries ts rest existing store (processed + ids_chunk.length)
    else
      match chunkRetryLoop (resp ids_chunk) 0 retries with
      | .resolved found =>
        enrichChunks resp retries ts rest (existing ++ found.map (·.id_str))
          (store ++ found.map (mkRecord ts)) (processed + ids_chunk.length)
      | .skippedNotFound => enrichChunks resp retries ts rest existing store processed
      | .exhausted => enrichChunks resp retries ts rest existing store processed
      | .fatal s b => ⟨store, existing, processed, some (s, b)⟩

/-- get_user_details (lines 129-204): loads existing ids, creates the file
    with a header when absent (147-149), then runs the chunk loop.
    Returns the file contents, a pending fatal exception, and the final
    processed_ids counter. -/
def get_user_details (resp : List String → Nat → LookupResp) (retries : Nat) (ts : String)
    (ids_list : List Nat) (file : Option (List FollowerRecord)) :
    List FollowerRecord × Option (Nat × String) × Nat :=
  let existing := load_existing_user_ids file
  let store0 := file.getD []
  let st := enrichChunks resp retries ts (chunks100 ids_list) existing store0 0
  (st.store, st.fatal, st.processed)

/-- The per-chunk progress fraction printed at line 200:
    processed_ids / total_ids * 100. -/
def enricherProgress (processed totalIds : Nat) : ℚ :=
  (processed : ℚ) / (totalIds : ℚ) * 100

/-- The collector's progress computation, line 101:
    min(total_retrieved / total_followers * 100, 100). Dividing by a zero
    total_followers raises ZeroDivisionError in Python, modeled as an
    error value. -/
def collectorProgress (totalRetrieved totalFollowers : Nat) : Except String ℚ :=
  if totalFollowers = 0 then .error "ZeroDivisionError"
  else .ok (min ((totalRetrieved : ℚ) / (totalFollowers : ℚ) * 100) 100)

/-- get_all_follower_ids (lines 51-110) under all-successful listing
    responses: the k-th element of `pages` is the page returned for the
    k-th listing request. Each iteration filters the page against
    existing_ids (line 92), computes the progress percentage — which
    raises ZeroDivisionError when the follower-count estimate is zero
    (line 101) — and stops once next_cursor = 0 (line 106). An exhausted
    `pages` list models a remote that stops answering mid-pagination. -/
def get_all_follower_ids (totalFollowers : Nat) (existing : List String) :
    List Page → Except String (List Nat)
  | [] => .error "no response"
  | p :: rest =>
    let new_ids := p.ids.filter (fun i => decide (toString i ∉ existing))
    if totalFollowers = 0 then .error "ZeroDivisionError"
    else if p.next_cursor = 0 then .ok new_ids
    else (get_all_follower_ids totalFollowers existing rest).map (fun l => new_ids ++ l)

/-- One traversal of the listing loop until a non-429 response is handled
    (lines 74-98): a 429 sleeps and reissues the request (77-83), any
    other non-200 status raises (84-86), a 200 yields the page payload
    (88-98). -/
def fetchPage : List ListingResp → Except String (List Nat × Int)
  | [] => .error "no response"
  | r :: rest =>
    if r.status = 429 then fetchPage rest
    else if r.status ≠ 200 then
      .error ("Error: " ++ toString r.status ++ " - " ++ r.body)
    else .ok (r.ids, r.next_cursor)

/-- Digit-run parser used by the model of Python's int() builtin. -/
def parseDigits (l : List Char) : Option Nat :=
  if l.isEmpty then none
  else if l.all (·.isDigit) then
    some (l.foldl (fun n c => n * 10 + (c.toNat - 48)) 0)
  else none

/-- Model of the external int() builtin on a header string: an optional
    minus sign followed by one or more digits; anything else raises
    ValueError, modeled as `none`. -/
def pyInt (s : String) : Option Int :=
  match s.data with
  | '-' :: rest => (parseDigits rest).map (fun n => -(n : Int))
  | l => (parseDigits l).map (fun n => (n : Int))

/-- Sleep computation for a 429 on the listing path (lines 78-80):
    reset_time = int(header) — int() raises ValueError on a malformed
    string — defaulting to now + 60 when the header is absent; the sleep
    is max(reset_time - now, 1). Both time.time() reads are modeled as
    the same instant `now`. -/
def listingSleep (resetHeader : Option String) (now : Int) : Except String Int :=
  match resetHeader with
  | none => .ok (max ((now + 60) - now) 1)
  | some s =>
    match pyInt s with
    | none => .error "ValueError"
    | some v => .ok (max (v - now) 1)

/-- Sleep computation for a 429 on the lookup path (lines 168-169): same
    reset_time, but the sleep is max(reset_time - now + 1, 0). -/
def lookupSleep (resetHeader : Option String) (now : Int) : Except String Int :=
  match resetHeader with
  | none => .ok (max ((now + 60) - now + 1) 0)
  | some s =>
    match pyInt s with
    | none => .error "ValueError"
    | some v => .ok (max (v - now + 1) 0)

/-- Model of a well-behaved batch-lookup remote: resolution is a fixed
    partial map from id string to user object, every request succeeds with
    status 200, and the endpoint returns one object per distinct requested
    id that resolves. -/
def okLookup (users : String → Option UserDetails) : List String → Nat → LookupResp :=
  fun req _ => .http 200 none (req.dedup.filterMap users) ""

/-- An error that aborts a run: a listing-phase exception or a fatal
    lookup-phase exception (status, body). -/
inductive RunError where
  | listing (msg : String)
  | lookupFatal (status : Nat) (body : String)
deriving DecidableEq, Repr

/-- Result of one run: the store file afterwards and the error that
    aborted the run, if any. -/
structure RunOutcome where
  store : Option (List FollowerRecord)
  err : Option RunError
deriving DecidableEq, Repr

/-- One fetch-mode run of main (lines 261-293, use_existing_data_only
    False): load existing ids (263), collect follower ids (274), re-filter
    them against existing ids (278-284), and enrich when any remain
    (288-289). get_user_details is called with its default retries=3. A
    listing failure aborts before the store file is touched. Report
    rendering (293) has no effect on the store. -/
def runOnce (pages : List Page) (total : Nat) (resp : List String → Nat → LookupResp)
    (ts : String) (file : Option (List FollowerRecord)) : RunOutcome :=
  let existing := load_existing_user_ids file
  match get_all_follower_ids total existing pages with
  | .error e => ⟨file, some (.listing e)⟩
  | .ok follower_ids =>
    let remaining := follower_ids.filter (fun i => decide (toString i ∉ existing))
    if remaining.isEmpty then ⟨file, none⟩
    else
      let r := get_user_details resp 3 ts remaining file
      ⟨some r.1, r.2.1.map (fun p => .lookupFatal p.1 p.2)⟩

/-- The inputs of one run: the listing pages, the follower-count estimate,
    the lookup response model, and the resolution timestamp. -/
structure RunEnv where
  pages : List Page
  total : Nat
  resp : List String → Nat → LookupResp
  ts : String

/-- A sequence of fetch-mode runs against possibly different remotes. -/
def runMany : List RunEnv → Option (List FollowerRecord) → Option (List FollowerRecord)
  | [], file => file
  | e :: es, file => runMany es (runOnce e.pages e.total e.resp e.ts file).store

/-- main (lines 261-293): in use-existing mode with a present file the
    store is used as-is (266-267); with no file it falls back to
    collecting and enriching (268-271, with no emptiness check before
    get_user_details); otherwise fetch mode. -/
def mainRun (useExistingDataOnly : Bool) (pages : List Page) (total : Nat)
    (resp : List String → Nat → LookupResp) (ts : String)
    (file : Option (List FollowerRecord)) : RunOutcome :=
  if useExistingDataOnly then
    match file with
    | some recs => ⟨some recs, none⟩
    | none =>
      match get_all_follower_ids total [] pages with
      | .error e => ⟨none, some (.listing e)⟩
      | .ok follower_ids =>
        let r := get_user_details resp 3 ts follower_ids none
        ⟨some r.1, r.2.1.map (fun p => .lookupFatal p.1 p.2)⟩
  else runOnce pages total resp ts file

/-- Contents of the store file ([] when the file is absent). -/
def storeRecords (file : Option (List FollowerRecord)) : List FollowerRecord :=
  file.getD []

/-- The id column of the store file. -/
def storeKeys (file : Option (List FollowerRecord)) : List String :=
  (storeRecords file).map (·.id)

/-- The dedup invariant: each id occurs on at most one row. -/
def storeKeysNodup (file : Option (List FollowerRecord)) : Prop :=
  (storeKeys file).Nodup

/-- The batch-lookup endpoint's contract: a 200 response to `req` carries
    one user object per distinct requested id that resolves — every
    returned id was requested and no id is returned twice. -/
def FaithfulLookup (resp : List String → Nat → LookupResp) : Prop :=
  ∀ req a h users body, resp req a = .http 200 h users body →
    (∀ u ∈ users, u.id_str ∈ req) ∧ (users.map (·.id_str)).Nodup

/-- The responses that consume a retry attempt and loop again: a 429 or a
    connection error. -/
def retryable : LookupResp → Bool
  | .connectionError => true
  | .http status _ _ _ => status == 429

/-! ### Concrete data used in witnesses and counterexamples -/

/-- A concrete user object used in witnesses and counterexamples. -/
def sampleUser : UserDetails := ⟨"1", "bob", "Bob", 3, some "Mon Jan 01 2020"⟩

/-- A store row for id "42", used as a concrete already-resolved record. -/
def rec42 : FollowerRecord := ⟨"2024-01-01 00:00:00", "42", "alice", "Alice", 5, "N/A"⟩

/-- A concrete two-page listing used by witnesses. -/
def pagesW : List Page := [⟨[1, 2], 7⟩, ⟨[3], 0⟩]

/-- A lookup remote that answers every request with 200 and no users. -/
def trivLookup : List String → Nat → LookupResp := fun _ _ => .http 200 none [] ""

/-- A concrete run environment for witnesses. -/
def envW : RunEnv := ⟨pagesW, 3, trivLookup, "t"⟩

/-- A concrete resolution map for witnesses: exactly ids "1" and "3"
    resolve, each to a user carrying that id. -/
def usersW : String → Option UserDetails := fun s =>
  if s = "1" then some ⟨"1", "alice", "Alice", 10, none⟩
  else if s = "3" then some ⟨"3", "carol", "Carol", 30, some "Sun Feb 02 2020"⟩
  else none

/-! ### Basic lemmas -/

theorem chunks100_flatten : ∀ l : List Nat, (chunks100 l).flatten = l
  | [] => rfl
  | a :: as => by
    rw [chunks100_cons]
    rw [List.flatten_cons, chunks100_flatten ((a :: as).drop 100)]
    exact List.take_append_drop 100 (a :: as)
termination_by l => l.length
decreasing_by simp [List.length_drop]; omega

theorem mem_of_mem_chunks100 {l : List Nat} {c : List Nat} {x : Nat}
    (hc : c ∈ chunks100 l) (hx : x ∈ c) : x ∈ l := by
  rw [← chunks100_flatten l]
  exact List.mem_flatten.mpr ⟨c, hc, hx⟩

theorem exists_chunk_of_mem {l : List Nat} {x : Nat} (hx : x ∈ l) :
    ∃ c ∈ chunks100 l, x ∈ c := by
  rw [← chunks100_flatten l] at hx
  exact List.mem_flatten.mp hx

theorem mem_chunkReq {existing : List String} {chunk : List Nat} {s : String} :
    s ∈ chunkReq existing chunk ↔ s ∈ chunk.map toString ∧ s ∉ existing := by
  simp [chunkReq]

/-! ### The per-chunk retry loop -/

theorem chunkRetryLoop_resolved {resp : Nat → LookupResp} :
    ∀ {n a : Nat} {found : List UserDetails},
      chunkRetryLoop resp a n = .resolved found →
      ∃ k h b, resp k = .http 200 h found b := by
  intro n
  induction n with
  | zero => intro a found h; simp [chunkRetryLoop] at h
  | succ m ih =>
    intro a found hres
    cases hr : resp a with
    | connectionError =>
      rw [chunkRetryLoop] at hres
      simp only [hr] at hres
      exact ih hres
    | http s hd us bd =>
      rw [chunkRetryLoop] at hres
      simp only [hr] at hres
      by_cases h404 : s = 404
      · simp [h404] at hres
      · rw [if_neg h404] at hres
        by_cases h429 : s = 429
        · rw [if_pos h429] at hres; exact ih hres
        · rw [if_neg h429] at hres
          by_cases h200 : s = 200
          · rw [if_neg (by simp [h200])] at hres
            cases hres
            exact ⟨a, hd, bd, by rw [hr, h200]⟩
          · rw [if_pos h200] at hres; cases hres

theorem chunkRetryLoop_retryable_resolves (resp : Nat → LookupResp) (k : Nat)
    (hd : Option String) (found : List UserDetails) (bd : String)
    (hrr : ∀ j, j < k → retryable (resp j) = true)
    (hok : resp k = .http 200 hd found bd) :
    ∀ (n a : Nat), a ≤ k → k - a < n → chunkRetryLoop resp a n = .resolved found := by
  intro n
  induction n with
  | zero => intro a _ h; omega
  | succ m ih =>
    intro a hak hkn
    rw [chunkRetryLoop]
    by_cases hek : a = k
    · subst hek; rw [hok]; norm_num
    · have halt : a < k := lt_of_le_of_ne hak hek
      have := hrr a halt
      cases hr : resp a with
      | connectionError => exact ih (a + 1) halt (by omega)
      | http s h2 u2 b2 =>
        rw [hr] at this
        simp only [retryable, beq_iff_eq] at this
        subst this
        norm_num
        exact ih (a + 1) halt (by omega)

theorem chunkRetryLoop_retryable_exhausts {resp : Nat → LookupResp} :
    ∀ (n a : Nat), (∀ j, a ≤ j → j < a + n → retryable (resp j) = true) →
      chunkRetryLoop resp a n = .exhausted := by
  intro n
  induction n with
  | zero => intro a _; rfl
  | succ m ih =>
    intro a hrr
    rw [chunkRetryLoop]
    have := hrr a (le_refl a) (by omega)
    cases hr : resp a with
    | connectionError => exact ih (a + 1) (fun j h1 h2 => hrr j (by omega) (by omega))
    | http s h2 u2 b2 =>
      rw [hr] at this
      simp only [retryable, beq_iff_eq] at this
      subst this
      norm_num
      exact ih (a + 1) (fun j h1 h2 => hrr j (by omega) (by omega))

theorem fetchPage_skips_429 :
    ∀ (n : Nat) (r : ListingResp) (rest : List ListingResp), r.status = 200 →
      fetchPage (List.replicate n ⟨429, some "0", [], 0, ""⟩ ++ r :: rest) =
        .ok (r.ids, r.next_cursor) := by
  intro n
  induction n with
  | zero =>
    intro r rest h200
    simp [fetchPage, h200]
  | succ m ih =>
    intro r rest h200
    rw [List.replicate_succ, List.cons_append, fetchPage]
    simpa using ih r rest h200

/-! ### C4 — collector progress at a zero follower estimate -/

/-- C4 counterexample: with a zero total-follower estimate the progress
    computation at line 101 is not defined — it divides by zero (Python
    raises ZeroDivisionError), and the collector aborts on its first
    iteration. The claim's "the zero case is explicitly guarded" is false:
    no guard exists in the code. -/
theorem c4_counterexample :
    collectorProgress 7 0 = .error "ZeroDivisionError"
    ∧ get_all_follower_ids 0 [] [⟨[1, 2], 0⟩] = .error "ZeroDivisionError" := by
  constructor <;> rfl

/-- C4 amended: for every positive total-follower estimate the progress
    percentage is defined and capped at 100; a zero estimate raises
    ZeroDivisionError (the division at line 101 is unguarded). -/
theorem c4_progress_capped (r t : Nat) (h : t ≠ 0) :
    ∃ q, collectorProgress r t = .ok q ∧ q ≤ 100 :=
  ⟨_, by rw [collectorProgress, if_neg h], min_le_right _ _⟩

theorem c4_progress_capped_witness :
    (2 : Nat) ≠ 0 ∧ ∃ q, collectorProgress 7 2 = .ok q ∧ q ≤ 100 :=
  ⟨by decide, c4_progress_capped 7 2 (by decide)⟩

/-! ### C7 — backoff sleep computation -/

/-- C7 counterexample: on the lookup path a stale reset instant (header
    "10" at now = 20) yields a sleep of 0 seconds — the minimum floor is
    not positive — and on the listing path a malformed reset header makes
    int() raise ValueError instead of falling back to a default wait. -/
theorem c7_counterexample :
    lookupSleep (some "10") 20 = .ok 0
    ∧ listingSleep (some "reset") 0 = .error "ValueError" := by
  constructor <;> rfl

/-- C7 amended: on the listing path the sleep is max(reset - now, 1) with
    positive floor 1 and an absent header falls back to a wait of 60 (one
    default window); on the lookup path the sleep is max(reset - now + 1, 0)
    whose floor is 0, so a stale reset yields a zero-second sleep (an
    absent header gives 61); a malformed header raises ValueError on both
    paths rather than falling back. -/
theorem c7_sleep_computation :
    (∀ h now d, listingSleep h now = .ok d → 1 ≤ d)
    ∧ (∀ now, listingSleep none now = .ok 60)
    ∧ (∀ now, lookupSleep none now = .ok 61)
    ∧ (∀ h now d, lookupSleep h now = .ok d → 0 ≤ d)
    ∧ (∀ s now, pyInt s = none →
        listingSleep (some s) now = .error "ValueError"
        ∧ lookupSleep (some s) now = .error "ValueError")
    ∧ (∀ s v now, pyInt s = some v →
        listingSleep (some s) now = .ok (max (v - now) 1)
        ∧ lookupSleep (some s) now = .ok (max (v - now + 1) 0)) := by
  refine ⟨?_, ?_, ?_, ?_, ?_, ?_⟩
  · intro h now d hd
    cases h with
    | none =>
      simp only [listingSleep, Except.ok.injEq] at hd
      omega
    | some s =>
      rw [listingSleep] at hd
      cases hp : pyInt s with
      | none => rw [hp] at hd; cases hd
      | some v =>
        rw [hp] at hd
        cases hd
        exact le_max_right _ _
  · intro now
    simp only [listingSleep, Except.ok.injEq]
    omega
  · intro now
    simp only [lookupSleep, Except.ok.injEq]
    omega
  · intro h now d hd
    cases h with
    | none =>
      simp only [lookupSleep, Except.ok.injEq] at hd
      omega
    | some s =>
      rw [lookupSleep] at hd
      cases hp : pyInt s with
      | none => rw [hp] at hd; cases hd
      | some v =>
        rw [hp] at hd
        cases hd
        exact le_max_right _ _
  · intro s now hp
    constructor
    · rw [listingSleep, hp]
    · rw [lookupSleep, hp]
  · intro s v now hp
    constructor
    · rw [listingSleep, hp]
    · rw [lookupSleep, hp]

theorem c7_sleep_computation_witness :
    1 ≤ (60 : Int) ∧ listingSleep none 5 = .ok 60 :=
  ⟨c7_sleep_computation.1 none 5 60 (c7_sleep_computation.2.1 5), c7_sleep_computation.2.1 5⟩

/-! ### C9 — skipped chunks and the progress counter -/

/-- C9 failing input: ids_list = [42] with the store already containing a
    row for id 42. The only chunk is emptied by the existing-ids filter and
    skipped, but line 155 adds len(ids_chunk) — the length of the emptied
    chunk, always 0 — to processed_ids, so after all chunks processed_ids
    is 0 and the reported progress is 0%, not the claimed 100%. The store
    itself is correctly left unchanged. -/
theorem c9_progress_bug :
    (get_user_details (okLookup (fun _ => none)) 3 "t" [42] (some [rec42])).2.2 = 0
    ∧ (get_user_details (okLookup (fun _ => none)) 3 "t" [42] (some [rec42])).1 = [rec42]
    ∧ enricherProgress 0 1 = 0
    ∧ enricherProgress 0 1 ≠ 100 := by
  refine ⟨by decide, by decide, by norm_num [enricherProgress], by norm_num [enricherProgress]⟩

/-! ### Step equations for the chunk loop -/

theorem enrichChunks_cons_skip (resp : List String → Nat → LookupResp) (retries : Nat)
    (ts : String) (chunk : List Nat) (rest : List (List Nat)) (ex : List String)
    (st : List FollowerRecord) (p : Nat) (hb : (chunkReq ex chunk).isEmpty = true) :
    enrichChunks resp retries ts (chunk :: rest) ex st p =
      enrichChunks resp retries ts rest ex st (p + (chunkReq ex chunk).length) := by
  rw [enrichChunks]
  simp only [hb, if_true]

theorem enrichChunks_cons_resolved (resp : List String → Nat → LookupResp) (retries : Nat)
    (ts : String) (chunk : List Nat) (rest : List (List Nat)) (ex : List String)
    (st : List FollowerRecord) (p : Nat) (found : List UserDetails)
    (hb : (chunkReq ex chunk).isEmpty = false)
    (hloop : chunkRetryLoop (resp (chunkReq ex chunk)) 0 retries = .resolved found) :
    enrichChunks resp retries ts (chunk :: rest) ex st p =
      enrichChunks resp retries ts rest (ex ++ found.map (·.id_str))
        (st ++ found.map (mkRecord ts)) (p + (chunkReq ex chunk).length) := by
  rw [enrichChunks]
  simp only [hb, Bool.false_eq_true, if_false, hloop]

theorem enrichChunks_cons_continue (resp : List String → Nat → LookupResp) (retries : Nat)
    (ts : String) (chunk : List Nat) (rest : List (List Nat)) (ex : List String)
    (st : List FollowerRecord) (p : Nat)
    (hb : (chunkReq ex chunk).isEmpty = false)
    (hloop : chunkRetryLoop (resp (chunkReq ex chunk)) 0 retries = .skippedNotFound
      ∨ chunkRetryLoop (resp (chunkReq ex chunk)) 0 retries = .exhausted) :
    enrichChunks resp retries ts (chunk :: rest) ex st p =
      enrichChunks resp retries ts rest ex st p := by
  rw [enrichChunks]
  rcases hloop with h | h <;> simp only [hb, Bool.false_eq_true, if_false, h]

theorem enrichChunks_cons_fatal (resp : List String → Nat → LookupResp) (retries : Nat)
    (ts : String) (chunk : List Nat) (rest : List (List Nat)) (ex : List String)
    (st : List FollowerRecord) (p : Nat) (s : Nat) (b : String)
    (hb : (chunkReq ex chunk).isEmpty = false)
    (hloop : chunkRetryLoop (resp (chunkReq ex chunk)) 0 retries = .fatal s b) :
    enrichChunks resp retries ts (chunk :: rest) ex st p = ⟨st, ex, p, some (s, b)⟩ := by
  rw [enrichChunks]
  simp only [hb, Bool.false_eq_true, if_false, hloop]

theorem map_mkRecord_id (ts : String) (l : List UserDetails) :
    (l.map (mkRecord ts)).map FollowerRecord.id = l.map (·.id_str) := by
  induction l with
  | nil => rfl
  | cons a l ih => simp only [List.map_cons, ih]; rfl

/-! ### The store-extension invariant of the chunk loop -/

/-- Under a faithful lookup endpoint (returned ids are requested ids,
    pairwise distinct), the chunk loop only appends rows whose ids were
    not in existing_ids, preserves distinctness of row ids, and keeps
    every row id inside the (growing) existing_ids set. -/
theorem enrich_inv {resp : List String → Nat → LookupResp} (hf : FaithfulLookup resp)
    (retries : Nat) (ts : String) :
    ∀ (chunks : List (List Nat)) (ex : List String) (st : List FollowerRecord) (p : Nat),
      ((st.map FollowerRecord.id).Nodup) →
      (∀ s ∈ st.map FollowerRecord.id, s ∈ ex) →
      ∃ Δ : List FollowerRecord,
        (enrichChunks resp retries ts chunks ex st p).store = st ++ Δ
        ∧ (∀ r ∈ Δ, r.id ∉ ex)
        ∧ (((enrichChunks resp retries ts chunks ex st p).store.map FollowerRecord.id).Nodup)
        ∧ (∀ s ∈ (enrichChunks resp retries ts chunks ex st p).store.map FollowerRecord.id,
            s ∈ (enrichChunks resp retries ts chunks ex st p).existing)
        ∧ (∀ s ∈ ex, s ∈ (enrichChunks resp retries ts chunks ex st p).existing) := by
  intro chunks
  induction chunks with
  | nil =>
    intro ex st p hnd hsub
    exact ⟨[], by simp [enrichChunks], by simp, by simpa [enrichChunks] using hnd,
      by simpa [enrichChunks] using hsub, by simp [enrichChunks]⟩
  | cons chunk rest ih =>
    intro ex st p hnd hsub
    by_cases hb : (chunkReq ex chunk).isEmpty
    · rw [enrichChunks_cons_skip resp retries ts chunk rest ex st p hb]
      exact ih ex st _ hnd hsub
    · have hbf : (chunkReq ex chunk).isEmpty = false := Bool.eq_false_iff.mpr hb
      cases hloop : chunkRetryLoop (resp (chunkReq ex chunk)) 0 retries with
      | resolved found =>
        rw [enrichChunks_cons_resolved resp retries ts chunk rest ex st p found hbf hloop]
        obtain ⟨k, hh, bb, hrk⟩ := chunkRetryLoop_resolved hloop
        obtain ⟨hids, hnodupf⟩ := hf (chunkReq ex chunk) k hh found bb hrk
        have hfresh : ∀ u ∈ found, u.id_str ∉ ex :=
          fun u hu => (mem_chunkReq.mp (hids u hu)).2
        have hnd1 : (((st ++ found.map (mkRecord ts)).map FollowerRecord.id)).Nodup := by
          rw [List.map_append, map_mkRecord_id, List.nodup_append]
          refine ⟨hnd, hnodupf, ?_⟩
          intro s hs hsf
          obtain ⟨u, hu, hus⟩ := List.mem_map.mp hsf
          exact hfresh u hu (hus ▸ hsub s hs)
        have hsub1 : ∀ s ∈ (st ++ found.map (mkRecord ts)).map FollowerRecord.id,
            s ∈ ex ++ found.map (·.id_str) := by
          intro s hs
          rw [List.map_append, map_mkRecord_id] at hs
          rcases List.mem_append.mp hs with h | h
          · exact List.mem_append_left _ (hsub s h)
          · exact List.mem_append_right _ h
        obtain ⟨Δ₂, h21, h22, h23, h24, h25⟩ :=
          ih (ex ++ found.map (·.id_str)) (st ++ found.map (mkRecord ts))
            (p + (chunkReq ex chunk).length) hnd1 hsub1
        refine ⟨found.map (mkRecord ts) ++ Δ₂, ?_, ?_, h23, h24, ?_⟩
        · rw [h21, List.append_assoc]
        · intro r hr
          rcases List.mem_append.mp hr with h | h
          · obtain ⟨u, hu, hur⟩ := List.mem_map.mp h
            have : r.id = u.id_str := by rw [← hur]; rfl
            rw [this]
            exact hfresh u hu
          · intro hmem
            exact h22 r h (List.mem_append_left _ hmem)
        · intro s hs
          exact h25 s (List.mem_append_left _ hs)
      | skippedNotFound =>
        rw [enrichChunks_cons_continue resp retries ts chunk rest ex st p hbf (Or.inl hloop)]
        exact ih ex st p hnd hsub
      | exhausted =>
        rw [enrichChunks_cons_continue resp retries ts chunk rest ex st p hbf (Or.inr hloop)]
        exact ih ex st p hnd hsub
      | fatal s b =>
        rw [enrichChunks_cons_fatal resp retries ts chunk rest ex st p s b hbf hloop]
        exact ⟨[], by simp, by simp, by simpa using hnd, by simpa using hsub, by simp⟩

theorem load_eq_storeKeys (file : Option (List FollowerRecord)) :
    load_existing_user_ids file = storeKeys file := by
  cases file <;> rfl

/-- One fetch-mode run only appends rows with fresh ids and preserves the
    dedup invariant of the store. -/
theorem runOnce_extends (pages : List Page) (total : Nat)
    (resp : List String → Nat → LookupResp) (ts : String)
    (file : Option (List FollowerRecord)) (hf : FaithfulLookup resp)
    (hnd : storeKeysNodup file) :
    ∃ Δ, storeRecords (runOnce pages total resp ts file).store = storeRecords file ++ Δ
      ∧ (∀ r ∈ Δ, r.id ∉ storeKeys file)
      ∧ storeKeysNodup (runOnce pages total resp ts file).store := by
  rw [runOnce]
  cases hcol : get_all_follower_ids total (load_existing_user_ids file) pages with
  | error e =>
    simp only [hcol]
    exact ⟨[], by simp, by simp, hnd⟩
  | ok ids =>
    simp only [hcol]
    by_cases hemp :
        (ids.filter (fun i => decide (toString i ∉ load_existing_user_ids file))).isEmpty
    · rw [if_pos hemp]
      exact ⟨[], by simp, by simp, hnd⟩
    · rw [if_neg hemp]
      have hnd' : (((file.getD []).map FollowerRecord.id)).Nodup := hnd
      have hsub' : ∀ s ∈ (file.getD []).map FollowerRecord.id,
          s ∈ load_existing_user_ids file := by
        intro s hs
        rw [load_eq_storeKeys]
        exact hs
      obtain ⟨Δ, h1, h2, h3, _, _⟩ := enrich_inv hf 3 ts
        (chunks100 (ids.filter (fun i => decide (toString i ∉ load_existing_user_ids file))))
        (load_existing_user_ids file) (file.getD []) 0 hnd' hsub'
      refine ⟨Δ, h1, ?_, h3⟩
      intro r hr
      rw [← load_eq_storeKeys]
      exact h2 r hr

theorem runMany_extends : ∀ (es : List RunEnv) (file : Option (List FollowerRecord)),
    (∀ e ∈ es, FaithfulLookup e.resp) → storeKeysNodup file →
    (∃ Δ, storeRecords (runMany es file) = storeRecords file ++ Δ
      ∧ ∀ r ∈ Δ, r.id ∉ storeKeys file)
    ∧ storeKeysNodup (runMany es file) := by
  intro es
  induction es with
  | nil =>
    intro file _ hnd
    exact ⟨⟨[], by simp [runMany], by simp⟩, by simpa [runMany] using hnd⟩
  | cons e es ih =>
    intro file hfs hnd
    obtain ⟨Δ₁, h11, h12, h13⟩ :=
      runOnce_extends e.pages e.total e.resp e.ts file (hfs e (by simp)) hnd
    obtain ⟨⟨Δ₂, h21, h22⟩, h23⟩ :=
      ih (runOnce e.pages e.total e.resp e.ts file).store
        (fun x hx => hfs x (by simp [hx])) h13
    rw [runMany]
    refine ⟨⟨Δ₁ ++ Δ₂, ?_, ?_⟩, h23⟩
    · rw [h21, h11, List.append_assoc]
    · intro r hr
      rcases List.mem_append.mp hr with h | h
      · exact h12 r h
      · intro hmem
        apply h22 r h
        have hkeys : storeKeys (runOnce e.pages e.total e.resp e.ts file).store =
            storeKeys file ++ Δ₁.map FollowerRecord.id := by
          unfold storeKeys
          rw [h11, List.map_append]
        rw [hkeys]
        exact List.mem_append_left _ hmem

theorem runMany_append : ∀ (es1 es2 : List RunEnv) (file : Option (List FollowerRecord)),
    runMany (es1 ++ es2) file = runMany es2 (runMany es1 file) := by
  intro es1
  induction es1 with
  | nil => intro es2 file; rfl
  | cons e es ih => intro es2 file; rw [List.cons_append, runMany, runMany, ih]

/-! ### C1 — the dedup invariant across runs -/

/-- C1: across any sequence of collection-plus-enrichment runs (under the
    lookup endpoint's contract that a 200 response returns only requested
    ids, each at most once), the store holds at most one row per id, and
    later runs only append rows whose ids were not already present —
    existing rows are never overwritten and present ids never re-resolved
    into a second row. -/
theorem c1_dedup_invariant (es1 es2 : List RunEnv)
    (hf : ∀ e ∈ es1 ++ es2, FaithfulLookup e.resp) :
    storeKeysNodup (runMany (es1 ++ es2) none)
    ∧ ∃ Δ, storeRecords (runMany (es1 ++ es2) none) = storeRecords (runMany es1 none) ++ Δ
        ∧ ∀ r ∈ Δ, r.id ∉ storeKeys (runMany es1 none) := by
  have hnone : storeKeysNodup (none : Option (List FollowerRecord)) := List.nodup_nil
  have h1 := runMany_extends es1 none
    (fun e he => hf e (List.mem_append_left _ he)) hnone
  have h2 := runMany_extends es2 (runMany es1 none)
    (fun e he => hf e (List.mem_append_right _ he)) h1.2
  rw [runMany_append]
  exact ⟨h2.2, h2.1⟩

theorem c1_dedup_invariant_witness :
    storeKeysNodup (runMany (([] : List RunEnv) ++ [envW]) none)
    ∧ ∃ Δ, storeRecords (runMany (([] : List RunEnv) ++ [envW]) none) =
          storeRecords (runMany [] none) ++ Δ
        ∧ ∀ r ∈ Δ, r.id ∉ storeKeys (runMany [] none) := by
  apply c1_dedup_invariant
  intro e he
  simp only [List.nil_append, List.mem_singleton] at he
  subst he
  intro req a h users body heq
  cases heq
  exact ⟨fun u hu => absurd hu (List.not_mem_nil u), List.nodup_nil⟩

/-! ### Unfolding helpers for runOnce and get_user_details -/

theorem get_user_details_eq (resp : List String → Nat → LookupResp) (retries : Nat)
    (ts : String) (ids : List Nat) (file : Option (List FollowerRecord)) :
    get_user_details resp retries ts ids file =
      ((enrichChunks resp retries ts (chunks100 ids)
          (load_existing_user_ids file) (file.getD []) 0).store,
       (enrichChunks resp retries ts (chunks100 ids)
          (load_existing_user_ids file) (file.getD []) 0).fatal,
       (enrichChunks resp retries ts (chunks100 ids)
          (load_existing_user_ids file) (file.getD []) 0).processed) := rfl

theorem runOnce_error (pages : List Page) (total : Nat)
    (resp : List String → Nat → LookupResp) (ts : String)
    (file : Option (List FollowerRecord)) (e : String)
    (hcol : get_all_follower_ids total (load_existing_user_ids file) pages = .error e) :
    runOnce pages total resp ts file = ⟨file, some (.listing e)⟩ := by
  rw [runOnce]
  simp only [hcol]

theorem runOnce_ok (pages : List Page) (total : Nat)
    (resp : List String → Nat → LookupResp) (ts : String)
    (file : Option (List FollowerRecord)) (ids : List Nat)
    (hcol : get_all_follower_ids total (load_existing_user_ids file) pages = .ok ids) :
    runOnce pages total resp ts file =
      if (ids.filter (fun i => decide (toString i ∉ load_existing_user_ids file))).isEmpty
      then ⟨file, none⟩
      else
        ⟨some (get_user_details resp 3 ts
            (ids.filter (fun i => decide (toString i ∉ load_existing_user_ids file))) file).1,
         (get_user_details resp 3 ts
            (ids.filter (fun i => decide (toString i ∉ load_existing_user_ids file)))
            file).2.1.map (fun q => .lookupFatal q.1 q.2)⟩ := by
  rw [runOnce]
  simp only [hcol]

/-! ### Behavior of the chunk loop against a well-behaved remote -/

theorem chunkRetryLoop_okLookup (users : String → Option UserDetails)
    (req : List String) (n : Nat) :
    chunkRetryLoop (okLookup users req) 0 (n + 1) = .resolved (req.dedup.filterMap users) := by
  rw [chunkRetryLoop]
  simp [okLookup]

/-- Against `okLookup users`, the chunk loop never fails and grows the
    store and existing_ids in lockstep: the appended rows are exactly the
    resolved users and their ids are exactly the strings added to
    existing_ids. -/
theorem enrich_ok_lockstep (users : String → Option UserDetails) (ts : String)
    (retries : Nat) (hr : retries ≠ 0) :
    ∀ (chunks : List (List Nat)) (ex : List String) (st : List FollowerRecord) (p : Nat),
      ∃ Δ : List UserDetails,
        (enrichChunks (okLookup users) retries ts chunks ex st p).store =
          st ++ Δ.map (mkRecord ts)
        ∧ (enrichChunks (okLookup users) retries ts chunks ex st p).existing =
          ex ++ Δ.map (·.id_str)
        ∧ (enrichChunks (okLookup users) retries ts chunks ex st p).fatal = none := by
  obtain ⟨m, rfl⟩ := Nat.exists_eq_succ_of_ne_zero hr
  intro chunks
  induction chunks with
  | nil =>
    intro ex st p
    exact ⟨[], by simp [enrichChunks], by simp [enrichChunks], by simp [enrichChunks]⟩
  | cons chunk rest ih =>
    intro ex st p
    by_cases hb : (chunkReq ex chunk).isEmpty
    · rw [enrichChunks_cons_skip _ _ _ _ _ _ _ _ hb]
      exact ih ex st _
    · have hbf := Bool.eq_false_iff.mpr hb
      have hloop := chunkRetryLoop_okLookup users (chunkReq ex chunk) m
      rw [enrichChunks_cons_resolved _ _ _ _ _ _ _ _ _ hbf hloop]
      obtain ⟨Δ₂, h1, h2, h3⟩ :=
        ih (ex ++ ((chunkReq ex chunk).dedup.filterMap users).map (·.id_str))
          (st ++ ((chunkReq ex chunk).dedup.filterMap users).map (mkRecord ts))
          (p + (chunkReq ex chunk).length)
      refine ⟨(chunkReq ex chunk).dedup.filterMap users ++ Δ₂, ?_, ?_, h3⟩
      · rw [h1, List.map_append, List.append_assoc]
      · rw [h2, List.map_append, List.append_assoc]

/-- Against `okLookup users` with an id-faithful resolution map, every
    resolvable id that appears in some chunk ends up in existing_ids. -/
theorem enrich_ok_mem (users : String → Option UserDetails) (ts : String)
    (retries : Nat) (hr : retries ≠ 0)
    (hu : ∀ s u, users s = some u → u.id_str = s) :
    ∀ (chunks : List (List Nat)) (ex : List String) (st : List FollowerRecord) (p : Nat)
      (s : String),
      (∃ c ∈ chunks, s ∈ c.map toString) → (users s).isSome →
      s ∈ (enrichChunks (okLookup users) retries ts chunks ex st p).existing := by
  obtain ⟨m, rfl⟩ := Nat.exists_eq_succ_of_ne_zero hr
  intro chunks
  induction chunks with
  | nil =>
    intro ex st p s hc _
    obtain ⟨c, hcc, _⟩ := hc
    exact absurd hcc (List.not_mem_nil c)
  | cons chunk rest ih =>
    intro ex st p s hc hsome
    obtain ⟨c, hcc, hsc⟩ := hc
    by_cases hb : (chunkReq ex chunk).isEmpty
    · rw [enrichChunks_cons_skip _ _ _ _ _ _ _ _ hb]
      rcases List.mem_cons.mp hcc with rfl | hcc'
      · have hsex : s ∈ ex := by
          by_contra hne
          have hmem : s ∈ chunkReq ex c := mem_chunkReq.mpr ⟨hsc, hne⟩
          rw [List.isEmpty_iff.mp hb] at hmem
          exact absurd hmem (List.not_mem_nil s)
        obtain ⟨Δ, _, he, _⟩ := enrich_ok_lockstep users ts (m + 1) hr rest ex st
          (p + (chunkReq ex c).length)
        rw [he]
        exact List.mem_append_left _ hsex
      · exact ih ex st _ s ⟨c, hcc', hsc⟩ hsome
    · have hbf := Bool.eq_false_iff.mpr hb
      have hloop := chunkRetryLoop_okLookup users (chunkReq ex chunk) m
      rw [enrichChunks_cons_resolved _ _ _ _ _ _ _ _ _ hbf hloop]
      rcases List.mem_cons.mp hcc with rfl | hcc'
      · by_cases hsex : s ∈ ex
        · obtain ⟨Δ, _, he, _⟩ := enrich_ok_lockstep users ts (m + 1) hr rest
            (ex ++ ((chunkReq ex c).dedup.filterMap users).map (·.id_str))
            (st ++ ((chunkReq ex c).dedup.filterMap users).map (mkRecord ts))
            (p + (chunkReq ex c).length)
          rw [he]
          exact List.mem_append_left _ (List.mem_append_left _ hsex)
        · have hreq : s ∈ chunkReq ex c := mem_chunkReq.mpr ⟨hsc, hsex⟩
          obtain ⟨u, hueq⟩ := Option.isSome_iff_exists.mp hsome
          have hufound : u ∈ (chunkReq ex c).dedup.filterMap users :=
            List.mem_filterMap.mpr ⟨s, List.mem_dedup.mpr hreq, hueq⟩
          have hsid : u.id_str = s := hu s u hueq
          obtain ⟨Δ, _, he, _⟩ := enrich_ok_lockstep users ts (m + 1) hr rest
            (ex ++ ((chunkReq ex c).dedup.filterMap users).map (·.id_str))
            (st ++ ((chunkReq ex c).dedup.filterMap users).map (mkRecord ts))
            (p + (chunkReq ex c).length)
          rw [he]
          apply List.mem_append_left
          apply List.mem_append_right
          exact List.mem_map.mpr ⟨u, hufound, hsid⟩
      · exact ih _ _ _ s ⟨c, hcc', hsc⟩ hsome

/-- Against `okLookup users`, a chunk list none of whose fresh ids
    resolve leaves the store and existing_ids untouched. -/
theorem enrich_ok_noop (users : String → Option UserDetails) (ts : String)
    (retries : Nat) (hr : retries ≠ 0) :
    ∀ (chunks : List (List Nat)) (ex : List String) (st : List FollowerRecord) (p : Nat),
      (∀ c ∈ chunks, ∀ s ∈ c.map toString, s ∉ ex → users s = none) →
      (enrichChunks (okLookup users) retries ts chunks ex st p).store = st
      ∧ (enrichChunks (okLookup users) retries ts chunks ex st p).existing = ex
      ∧ (enrichChunks (okLookup users) retries ts chunks ex st p).fatal = none := by
  obtain ⟨m, rfl⟩ := Nat.exists_eq_succ_of_ne_zero hr
  intro chunks
  induction chunks with
  | nil =>
    intro ex st p _
    exact ⟨by simp [enrichChunks], by simp [enrichChunks], by simp [enrichChunks]⟩
  | cons chunk rest ih =>
    intro ex st p hnone
    by_cases hb : (chunkReq ex chunk).isEmpty
    · rw [enrichChunks_cons_skip _ _ _ _ _ _ _ _ hb]
      exact ih ex st _ (fun c hc => hnone c (List.mem_cons_of_mem _ hc))
    · have hbf := Bool.eq_false_iff.mpr hb
      have hloop := chunkRetryLoop_okLookup users (chunkReq ex chunk) m
      have hfm : (chunkReq ex chunk).dedup.filterMap users = [] := by
        rw [List.filterMap_eq_nil_iff]
        intro s hs
        obtain ⟨hsc, hsex⟩ := mem_chunkReq.mp (List.mem_dedup.mp hs)
        exact hnone chunk (List.mem_cons_self _ _) s hsc hsex
      rw [enrichChunks_cons_resolved _ _ _ _ _ _ _ _ _ hbf hloop]
      simp only [hfm, List.map_nil, List.append_nil]
      exact ih ex st _ (fun c hc => hnone c (List.mem_cons_of_mem _ hc))

/-! ### The collector commutes with known-ids filtering -/

theorem filter_toString_nil (l : List Nat) :
    l.filter (fun i => decide (toString i ∉ ([] : List String))) = l := by
  simp

theorem filter_toString_idem (l : List Nat) (ex : List String) :
    (l.filter (fun i => decide (toString i ∉ ex))).filter
      (fun i => decide (toString i ∉ ex)) = l.filter (fun i => decide (toString i ∉ ex)) := by
  rw [List.filter_filter]
  simp

theorem get_all_follower_ids_filter (total : Nat) (ex : List String) :
    ∀ pages : List Page, get_all_follower_ids total ex pages =
      (get_all_follower_ids total [] pages).map
        (fun l => l.filter (fun i => decide (toString i ∉ ex))) := by
  intro pages
  induction pages with
  | nil => rfl
  | cons p rest ih =>
    simp only [get_all_follower_ids]
    by_cases h0 : total = 0
    · simp [h0, Except.map]
    · rw [if_neg h0, if_neg h0]
      by_cases hc : p.next_cursor = 0
      · rw [if_pos hc, if_pos hc]
        simp [Except.map]
      · rw [if_neg hc, if_neg hc, ih]
        cases get_all_follower_ids total [] rest with
        | error e => rfl
        | ok l =>
          simp [Except.map, List.filter_append]

/-! ### C2 — idempotence of the full pipeline -/

/-- C2: running the fetch-mode pipeline a second time against the same
    unchanged remote (same pages, same resolution map, every lookup
    succeeding) starting from the store the first run produced changes
    nothing: the store is equal (hence the same row count and record set)
    and the second run reports no error. The resolution map must be
    id-faithful (a resolved user carries the id it was looked up by). -/
theorem c2_idempotent (pages : List Page) (total : Nat)
    (users : String → Option UserDetails) (ts1 ts2 : String)
    (hu : ∀ s u, users s = some u → u.id_str = s)
    (h1 : (runOnce pages total (okLookup users) ts1 none).err = none) :
    (runOnce pages total (okLookup users) ts2
        (runOnce pages total (okLookup users) ts1 none).store).store
      = (runOnce pages total (okLookup users) ts1 none).store
    ∧ (runOnce pages total (okLookup users) ts2
        (runOnce pages total (okLookup users) ts1 none).store).err = none := by
  have hload0 : load_existing_user_ids (none : Option (List FollowerRecord)) = [] := rfl
  cases hcol : get_all_follower_ids total [] pages with
  | error e =>
    exfalso
    have hre := runOnce_error pages total (okLookup users) ts1 none e
      (by rw [hload0]; exact hcol)
    rw [hre] at h1
    exact Option.noConfusion h1
  | ok ids1 =>
    have hcol' : get_all_follower_ids total (load_existing_user_ids none) pages = .ok ids1 := by
      rw [hload0]; exact hcol
    have hro1 := runOnce_ok pages total (okLookup users) ts1 none ids1 hcol'
    rw [hload0, filter_toString_nil] at hro1
    by_cases hemp : ids1.isEmpty
    · rw [if_pos hemp] at hro1
      have hro2 := runOnce_ok pages total (okLookup users) ts2 none ids1 hcol'
      rw [hload0, filter_toString_nil, if_pos hemp] at hro2
      rw [hro1]
      constructor
      · show (runOnce pages total (okLookup users) ts2 none).store = none
        rw [hro2]
      · show (runOnce pages total (okLookup users) ts2 none).err = none
        rw [hro2]
    · rw [if_neg hemp] at hro1
      obtain ⟨Δ, hst1, hex1, hfat1⟩ := enrich_ok_lockstep users ts1 3
        (by decide) (chunks100 ids1) [] [] 0
      rw [List.nil_append] at hst1 hex1
      have hgud1 : get_user_details (okLookup users) 3 ts1 ids1 none =
          ((enrichChunks (okLookup users) 3 ts1 (chunks100 ids1) [] [] 0).store,
           (enrichChunks (okLookup users) 3 ts1 (chunks100 ids1) [] [] 0).fatal,
           (enrichChunks (okLookup users) 3 ts1 (chunks100 ids1) [] [] 0).processed) := rfl
      have hr1store : (runOnce pages total (okLookup users) ts1 none).store =
          some (enrichChunks (okLookup users) 3 ts1 (chunks100 ids1) [] [] 0).store := by
        rw [hro1, hgud1]
      have hkeys : (enrichChunks (okLookup users) 3 ts1
          (chunks100 ids1) [] [] 0).store.map FollowerRecord.id = Δ.map (·.id_str) := by
        rw [hst1, map_mkRecord_id]
      have hload2 : load_existing_user_ids
          (some (enrichChunks (okLookup users) 3 ts1 (chunks100 ids1) [] [] 0).store) =
          Δ.map (·.id_str) := hkeys
      have hcol2 : get_all_follower_ids total (Δ.map (·.id_str)) pages =
          .ok (ids1.filter (fun i => decide (toString i ∉ Δ.map (·.id_str)))) := by
        rw [get_all_follower_ids_filter total (Δ.map (·.id_str)) pages, hcol]
        rfl
      have hcol2' : get_all_follower_ids total
          (load_existing_user_ids
            (some (enrichChunks (okLookup users) 3 ts1 (chunks100 ids1) [] [] 0).store))
          pages =
          .ok (ids1.filter (fun i => decide (toString i ∉ Δ.map (·.id_str)))) := by
        rw [hload2]; exact hcol2
      have hro2 := runOnce_ok pages total (okLookup users) ts2
        (some (enrichChunks (okLookup users) 3 ts1 (chunks100 ids1) [] [] 0).store)
        (ids1.filter (fun i => decide (toString i ∉ Δ.map (·.id_str)))) hcol2'
      rw [hload2, filter_toString_idem] at hro2
      have hnone2 : ∀ c ∈ chunks100
            (ids1.filter (fun i => decide (toString i ∉ Δ.map (·.id_str)))),
          ∀ s ∈ c.map toString, s ∉ Δ.map (·.id_str) → users s = none := by
        intro c hc s hs hsex
        obtain ⟨i, hic, hieq⟩ := List.mem_map.mp hs
        subst hieq
        have hi2 : i ∈ ids1.filter (fun i => decide (toString i ∉ Δ.map (·.id_str))) :=
          mem_of_mem_chunks100 hc hic
        have hi1 : i ∈ ids1 := List.mem_of_mem_filter hi2
        by_contra hne
        have hsome : (users (toString i)).isSome := Option.ne_none_iff_isSome.mp hne
        obtain ⟨c', hc', hic'⟩ := exists_chunk_of_mem hi1
        have hmem := enrich_ok_mem users ts1 3 (by decide) hu
          (chunks100 ids1) [] [] 0 (toString i)
          ⟨c', hc', List.mem_map_of_mem _ hic'⟩ hsome
        rw [hex1] at hmem
        exact hsex hmem
      by_cases hemp2 :
          (ids1.filter (fun i => decide (toString i ∉ Δ.map (·.id_str)))).isEmpty
      · rw [if_pos hemp2] at hro2
        rw [hr1store]
        constructor
        · show (runOnce pages total (okLookup users) ts2
              (some (enrichChunks (okLookup users) 3 ts1 (chunks100 ids1) [] [] 0).store)).store
            = some (enrichChunks (okLookup users) 3 ts1 (chunks100 ids1) [] [] 0).store
          rw [hro2]
        · show (runOnce pages total (okLookup users) ts2
              (some (enrichChunks (okLookup users) 3 ts1 (chunks100 ids1) [] [] 0).store)).err
            = none
          rw [hro2]
      · rw [if_neg hemp2] at hro2
        obtain ⟨hnoopst, hnoopex, hnoopfat⟩ := enrich_ok_noop users ts2 3
          (by decide) (chunks100 (ids1.filter (fun i => decide (toString i ∉ Δ.map (·.id_str)))))
          (Δ.map (·.id_str))
          (enrichChunks (okLookup users) 3 ts1 (chunks100 ids1) [] [] 0).store 0 hnone2
        have hgudstore : (get_user_details (okLookup users) 3 ts2
            (ids1.filter (fun i => decide (toString i ∉ Δ.map (·.id_str))))
            (some (enrichChunks (okLookup users) 3 ts1 (chunks100 ids1) [] [] 0).store)).1
            = (enrichChunks (okLookup users) 3 ts1 (chunks100 ids1) [] [] 0).store := by
          rw [get_user_details_eq, hload2]
          exact hnoopst
        have hgudfat : (get_user_details (okLookup users) 3 ts2
            (ids1.filter (fun i => decide (toString i ∉ Δ.map (·.id_str))))
            (some (enrichChunks (okLookup users) 3 ts1 (chunks100 ids1) [] [] 0).store)).2.1
            = none := by
          rw [get_user_details_eq, hload2]
          exact hnoopfat
        rw [hr1store]
        constructor
        · show (runOnce pages total (okLookup users) ts2
              (some (enrichChunks (okLookup users) 3 ts1 (chunks100 ids1) [] [] 0).store)).store
            = some (enrichChunks (okLookup users) 3 ts1 (chunks100 ids1) [] [] 0).store
          rw [hro2]
          show some (get_user_details (okLookup users) 3 ts2
              (ids1.filter (fun i => decide (toString i ∉ Δ.map (·.id_str))))
              (some (enrichChunks (okLookup users) 3 ts1 (chunks100 ids1) [] [] 0).store)).1
            = some (enrichChunks (okLookup users) 3 ts1 (chunks100 ids1) [] [] 0).store
          rw [hgudstore]
        · show (runOnce pages total (okLookup users) ts2
              (some (enrichChunks (okLookup users) 3 ts1 (chunks100 ids1) [] [] 0).store)).err
            = none
          rw [hro2]
          show ((get_user_details (okLookup users) 3 ts2
              (ids1.filter (fun i => decide (toString i ∉ Δ.map (·.id_str))))
              (some (enrichChunks (okLookup users) 3 ts1
                (chunks100 ids1) [] [] 0).store)).2.1.map
            (fun q => RunError.lookupFatal q.1 q.2)) = none
          rw [hgudfat]
          rfl

theorem c2_idempotent_witness :
    (∀ s u, usersW s = some u → u.id_str = s)
    ∧ (runOnce pagesW 3 (okLookup usersW) "t1" none).err = none
    ∧ ((runOnce pagesW 3 (okLookup usersW) "t2"
          (runOnce pagesW 3 (okLookup usersW) "t1" none).store).store
        = (runOnce pagesW 3 (okLookup usersW) "t1" none).store
      ∧ (runOnce pagesW 3 (okLookup usersW) "t2"
          (runOnce pagesW 3 (okLookup usersW) "t1" none).store).err = none) := by
  have hu : ∀ s u, usersW s = some u → u.id_str = s := by
    intro s u h
    simp only [usersW] at h
    split_ifs at h with hs1 hs3
    · injection h with h'
      subst h'
      exact hs1.symm
    · injection h with h'
      subst h'
      exact hs3.symm
  have h1 : (runOnce pagesW 3 (okLookup usersW) "t1" none).err = none := by decide
  exact ⟨hu, h1, c2_idempotent pagesW 3 usersW "t1" "t2" hu h1⟩

/-! ### C10 — use-existing mode with no store file falls back to a fetch -/

/-- C10: in use-existing-data-only mode with no store file, main does not
    fail and does not report from the missing file: it falls back to
    collecting follower ids and enriching them. The fallback produces the
    same store records and the same error outcome as fetch mode started
    from the same absent store, and on a successful listing the store file
    is created and holds exactly the enrichment's output. -/
theorem c10_fallback (pages : List Page) (total : Nat)
    (resp : List String → Nat → LookupResp) (ts : String) :
    storeRecords (mainRun true pages total resp ts none).store
      = storeRecords (mainRun false pages total resp ts none).store
    ∧ (mainRun true pages total resp ts none).err
      = (mainRun false pages total resp ts none).err
    ∧ (∀ l, get_all_follower_ids total [] pages = .ok l →
        (mainRun true pages total resp ts none).store
          = some (get_user_details resp 3 ts l none).1) := by
  have hload0 : load_existing_user_ids (none : Option (List FollowerRecord)) = [] := rfl
  cases hcol : get_all_follower_ids total [] pages with
  | error e =>
    have ht : mainRun true pages total resp ts none = ⟨none, some (.listing e)⟩ := by
      simp only [mainRun, hcol, if_true]
    have hf : runOnce pages total resp ts none = ⟨none, some (.listing e)⟩ :=
      runOnce_error pages total resp ts none e (by rw [hload0]; exact hcol)
    refine ⟨?_, ?_, ?_⟩
    · show storeRecords (mainRun true pages total resp ts none).store
        = storeRecords (runOnce pages total resp ts none).store
      rw [ht, hf]
    · show (mainRun true pages total resp ts none).err
        = (runOnce pages total resp ts none).err
      rw [ht, hf]
    · intro l hl
      exact Except.noConfusion hl
  | ok ids =>
    have ht : mainRun true pages total resp ts none =
        ⟨some (get_user_details resp 3 ts ids none).1,
         (get_user_details resp 3 ts ids none).2.1.map (fun q => .lookupFatal q.1 q.2)⟩ := by
      simp only [mainRun, hcol, if_true]
    have hfo := runOnce_ok pages total resp ts none ids (by rw [hload0]; exact hcol)
    rw [hload0, filter_toString_nil] at hfo
    by_cases hemp : ids.isEmpty
    · rw [if_pos hemp] at hfo
      have hids : ids = [] := List.isEmpty_iff.mp hemp
      subst hids
      refine ⟨?_, ?_, ?_⟩
      · show storeRecords (mainRun true pages total resp ts none).store
          = storeRecords (runOnce pages total resp ts none).store
        rw [ht, hfo]
        rfl
      · show (mainRun true pages total resp ts none).err
          = (runOnce pages total resp ts none).err
        rw [ht, hfo]
        rfl
      · intro l hl
        injection hl with h'
        subst h'
        rw [ht]
    · rw [if_neg hemp] at hfo
      refine ⟨?_, ?_, ?_⟩
      · show storeRecords (mainRun true pages total resp ts none).store
          = storeRecords (runOnce pages total resp ts none).store
        rw [ht, hfo]
      · show (mainRun true pages total resp ts none).err
          = (runOnce pages total resp ts none).err
        rw [ht, hfo]
      · intro l hl
        injection hl with h'
        subst h'
        rw [ht]

theorem c10_fallback_witness :
    get_all_follower_ids 3 [] pagesW = .ok [1, 2, 3]
    ∧ (mainRun true pagesW 3 trivLookup "t" none).store
      = some (get_user_details trivLookup 3 "t" [1, 2, 3] none).1 := by
  have hcol : get_all_follower_ids 3 [] pagesW = .ok [1, 2, 3] := by rfl
  exact ⟨hcol, (c10_fallback pagesW 3 trivLookup "t").2.2 [1, 2, 3] hcol⟩

/-! ### C5 — rate-limit retry on the two request paths -/

/-- C5 counterexample: on the batch-lookup path, three consecutive 429
    responses followed by a successful one do NOT yield the successful
    result — each 429 consumes one of the retries=3 attempts (the
    `continue` at line 170 advances the attempt loop), so the budget is
    exhausted, the chunk is skipped, and nothing is written to the store. -/
theorem c5_counterexample :
    chunkRetryLoop
        (fun a => if a < 3 then .http 429 (some "0") [] ""
                  else .http 200 none [sampleUser] "") 0 3 = .exhausted
    ∧ (enrichChunks
        (fun _ a => if a < 3 then .http 429 (some "0") [] ""
                    else .http 200 none [sampleUser] "") 3 "t" [[1]] [] [] 0).store = [] := by
  constructor <;> rfl

/-- C5 amended: on the listing path a rate-limited response is retried
    without bound — any number of consecutive 429s followed by a success
    yields the successful page. On the batch-lookup path each 429 consumes
    one attempt of the bounded retry budget: fewer than `retries`
    consecutive 429s before a success still yield the successful result,
    but `retries` or more consecutive 429s exhaust the budget and the
    chunk is skipped. -/
theorem c5_rate_limit_retry :
    (∀ (n : Nat) (r : ListingResp) (rest : List ListingResp), r.status = 200 →
      fetchPage (List.replicate n ⟨429, some "0", [], 0, ""⟩ ++ r :: rest) =
        .ok (r.ids, r.next_cursor))
    ∧ (∀ (retries k : Nat) (found : List UserDetails), k < retries →
        chunkRetryLoop
          (fun a => if a < k then .http 429 (some "0") [] ""
                    else .http 200 none found "") 0 retries = .resolved found)
    ∧ (∀ (retries k : Nat) (found : List UserDetails), retries ≤ k →
        chunkRetryLoop
          (fun a => if a < k then .http 429 (some "0") [] ""
                    else .http 200 none found "") 0 retries = .exhausted) := by
  refine ⟨fetchPage_skips_429, ?_, ?_⟩
  · intro retries k found hk
    refine chunkRetryLoop_retryable_resolves _ k none found "" ?_ ?_ retries 0
      (Nat.zero_le k) (by omega)
    · intro j hj
      simp [retryable, hj]
    · simp
  · intro retries k found hk
    refine chunkRetryLoop_retryable_exhausts retries 0 ?_
    intro j _ hj
    have : j < k := by omega
    simp [retryable, this]

theorem c5_rate_limit_retry_witness :
    2 < 3
    ∧ chunkRetryLoop
        (fun a => if a < 2 then .http 429 (some "0") [] ""
                  else .http 200 none [sampleUser] "") 0 3 = .resolved [sampleUser] :=
  ⟨by decide, c5_rate_limit_retry.2.1 3 2 [sampleUser] (by decide)⟩

/-! ### C6 — bounded transport-error retry per chunk -/

/-- C6: fewer than `retries` consecutive connection errors before a
    success resolve the chunk; a full budget of consecutive connection
    errors exhausts the retry loop. An exhausted or 404-free resolved
    chunk step is reflected in the store exactly as the claim states: on
    exhaustion the chunk is skipped, nothing is written for its ids, and
    the loop continues with the next chunk; on success the chunk's records
    are appended to the store. -/
theorem c6_transport_retry :
    (∀ (retries k : Nat) (found : List UserDetails), k < retries →
      chunkRetryLoop
        (fun a => if a < k then .connectionError else .http 200 none found "") 0 retries =
          .resolved found)
    ∧ (∀ retries : Nat, chunkRetryLoop (fun _ => .connectionError) 0 retries = .exhausted)
    ∧ (∀ resp retries ts chunk rest existing store p,
        chunkReq existing chunk ≠ [] →
        chunkRetryLoop (resp (chunkReq existing chunk)) 0 retries = .exhausted →
        enrichChunks resp retries ts (chunk :: rest) existing store p =
          enrichChunks resp retries ts rest existing store p)
    ∧ (∀ resp retries ts chunk rest existing store p found,
        chunkReq existing chunk ≠ [] →
        chunkRetryLoop (resp (chunkReq existing chunk)) 0 retries = .resolved found →
        enrichChunks resp retries ts (chunk :: rest) existing store p =
          enrichChunks resp retries ts rest (existing ++ found.map (·.id_str))
            (store ++ found.map (mkRecord ts)) (p + (chunkReq existing chunk).length)) := by
  refine ⟨?_, ?_, ?_, ?_⟩
  · intro retries k found hk
    refine chunkRetryLoop_retryable_resolves _ k none found "" ?_ ?_ retries 0
      (Nat.zero_le k) (by omega)
    · intro j hj
      simp [retryable, hj]
    · simp
  · intro retries
    exact chunkRetryLoop_retryable_exhausts retries 0 (fun j _ _ => rfl)
  · intro resp retries ts chunk rest existing store p hne hloop
    have hb : (chunkReq existing chunk).isEmpty = false := by
      cases hh : chunkReq existing chunk with
      | nil => exact absurd hh hne
      | cons a l => rfl
    rw [enrichChunks]
    simp only [hb, Bool.false_eq_true, if_false, hloop]
  · intro resp retries ts chunk rest existing store p found hne hloop
    have hb : (chunkReq existing chunk).isEmpty = false := by
      cases hh : chunkReq existing chunk with
      | nil => exact absurd hh hne
      | cons a l => rfl
    rw [enrichChunks]
    simp only [hb, Bool.false_eq_true, if_false, hloop]

theorem c6_transport_retry_witness :
    2 < 3
    ∧ chunkRetryLoop
        (fun a => if a < 2 then .connectionError else .http 200 none [sampleUser] "") 0 3 =
          .resolved [sampleUser] :=
  ⟨by decide, c6_transport_retry.1 3 2 [sampleUser] (by decide)⟩

/-! ### C8 — not_found handling on the two request paths -/

/-- C8 counterexample: a 404 on the LISTING path is not an empty result —
    it falls into the generic non-200 branch at lines 84-86 and raises,
    aborting the run. -/
theorem c8_counterexample :
    fetchPage [⟨404, none, [], 0, "Not Found"⟩] = .error "Error: 404 - Not Found" := by
  rfl

/-- C8 amended: on the batch-lookup path a 404 breaks out of the retry
    loop as an empty result — no record is written, no exception raised,
    and the run continues with the next chunk; on the listing path any
    non-200, non-429 status, including 404, raises an exception and aborts
    the run. -/
theorem c8_not_found :
    (∀ (resp : Nat → LookupResp) (a n : Nat) (h : Option String)
        (users : List UserDetails) (b : String),
      resp a = .http 404 h users b →
      chunkRetryLoop resp a (n + 1) = .skippedNotFound)
    ∧ (∀ resp retries ts chunk rest existing store p,
        chunkReq existing chunk ≠ [] →
        chunkRetryLoop (resp (chunkReq existing chunk)) 0 retries = .skippedNotFound →
        enrichChunks resp retries ts (chunk :: rest) existing store p =
          enrichChunks resp retries ts rest existing store p)
    ∧ (∀ (r : ListingResp) (rest : List ListingResp), r.status = 404 →
        fetchPage (r :: rest) = .error ("Error: " ++ toString r.status ++ " - " ++ r.body)) := by
  refine ⟨?_, ?_, ?_⟩
  · intro resp a n h users b hr
    rw [chunkRetryLoop]
    simp [hr]
  · intro resp retries ts chunk rest existing store p hne hloop
    have hb : (chunkReq existing chunk).isEmpty = false := by
      cases hh : chunkReq existing chunk with
      | nil => exact absurd hh hne
      | cons a l => rfl
    rw [enrichChunks]
    simp only [hb, Bool.false_eq_true, if_false, hloop]
  · intro r rest h404
    rw [fetchPage]
    simp [h404]

theorem c8_not_found_witness :
    ((⟨404, none, [1], 5, "gone"⟩ : ListingResp).status = 404)
    ∧ fetchPage [⟨404, none, [1], 5, "gone"⟩] =
        .error ("Error: " ++ toString (404 : Nat) ++ " - " ++ "gone") :=
  ⟨rfl, c8_not_found.2.2 ⟨404, none, [1], 5, "gone"⟩ [] rfl⟩

/-! ### C3 — pagination termination and completeness -/

/-- C3: for a finite page sequence whose last page carries the terminal
    next_cursor 0 (and earlier pages do not), the collector — a total
    function of the page list, hence terminating — returns exactly the
    concatenation of all page ids minus the already-known ids. The
    follower estimate must be nonzero for the progress computation at
    line 101 not to raise. -/
theorem c3_pagination : ∀ (pages : List Page) (total : Nat) (known : List String)
    (hnz : total ≠ 0) (hne : pages ≠ [])
    (hmid : ∀ p ∈ pages.dropLast, p.next_cursor ≠ 0)
    (hlast : (pages.getLast hne).next_cursor = 0),
    get_all_follower_ids total known pages =
      .ok (pages.flatMap fun p => p.ids.filter fun i => decide (toString i ∉ known))
  | [], _, _, _, hne, _, _ => absurd rfl hne
  | [p], total, known, hnz, hne, hmid, hlast => by
    have h0 : p.next_cursor = 0 := hlast
    rw [get_all_follower_ids]
    simp [hnz, h0]
  | p :: q :: rest, total, known, hnz, hne, hmid, hlast => by
    have hp : p.next_cursor ≠ 0 := hmid p (by simp)
    have hrec := c3_pagination (q :: rest) total known hnz (by simp)
      (fun x hx => hmid x (by simp [hx]))
      (by rw [← List.getLast_cons (l := q :: rest) (by simp)]; exact hlast)
    rw [get_all_follower_ids]
    simp only [if_neg hnz, if_neg hp, hrec]
    rfl

theorem c3_pagination_witness :
    get_all_follower_ids 3 ["2"] pagesW =
      .ok (pagesW.flatMap fun p => p.ids.filter fun i => decide (toString i ∉ ["2"])) :=
  c3_pagination pagesW 3 ["2"] (by decide) (by decide) (by decide) (by decide)

end XFollowers
